import Mathlib

/-!
Shallow embedding of `src/src/parser/behavioral_statements/looping_statements.rs`,
the loop-statement grammar core of the sv-parser repository.

Each Rust parser function of type `fn(&str) -> IResult<&str, T>` is embedded as a
Lean function `Input → Option (Input × T)`: on success it returns the remaining
input together with the constructed AST node, on failure it returns `none`
(nom's non-consuming `Err`, which carries no cursor and no partial node).
Totality of every definition below embeds the "never panics" guarantee.

The sub-grammars this file delegates to (token matcher, expression grammar,
statement grammar, data-type grammar, identifier grammars, assignment grammars)
are code of the repository that is not part of the given source file; they are
modelled from the spec, as marked on each such definition.
-/

namespace SvParser

/-- The remaining-input slice threaded through every parser. -/
abbrev Input := List Char

/-- Embedding of nom's `IResult`: remaining input first, value second, failure is `none`. -/
abbrev Parser (α : Type) : Type := Input → Option (Input × α)

/-- Convert a string literal to the character-list input representation. -/
def strL (s : String) : Input := s.data

/-- Trivia characters skipped by the token matcher. -/
def isSpaceC (c : Char) : Bool := c == ' ' || c == '\t' || c == '\n' || c == '\r'

/-- Literal matching: strip the keyword `k` from the front of the input, if present. -/
def stripKw : List Char → Input → Option Input
  | [], s => some s
  | _ :: _, [] => none
  | a :: k, b :: s => if a = b then stripKw k s else none

/-- Modelled from the spec: the external trivia-skipping literal token matcher
(`symbol`): it consumes leading trivia plus the literal `k`, and fails
(non-consumingly) otherwise. -/
def symbol (k : List Char) : Parser Unit := fun s =>
  (stripKw k (s.dropWhile isSpaceC)).map (fun t => (t, ()))

/-- Embedding of nom's `opt`: always succeeds, restoring the input on inner failure. -/
def opt {α : Type} (p : Parser α) : Parser (Option α) := fun s =>
  match p s with
  | some (t, x) => some (t, some x)
  | none => some (s, none)

/-- Embedding of nom's `alt`: ordered alternation, first success wins, each
alternative is tried at the same starting position. -/
def altl {α : Type} (ps : List (Parser α)) : Parser α := fun s =>
  match ps with
  | [] => none
  | p :: rest =>
    match p s with
    | some r => some r
    | none => altl rest s

/-- Embedding of nom's `map`: apply `f` to the parsed value. -/
def pmap {α β : Type} (f : α → β) (p : Parser α) : Parser β := fun s =>
  (p s).map (fun r => (r.1, f r.2))

/-- Embedding of nom's `pair`: run two parsers in sequence, returning both values. -/
def pairP {α β : Type} (p : Parser α) (q : Parser β) : Parser (α × β) := fun s =>
  (p s).bind fun r1 => (q r1.1).map fun r2 => (r2.1, (r1.2, r2.2))

/-- Embedding of nom's `preceded`: run two parsers in sequence, keeping the second value. -/
def precededP {α β : Type} (p : Parser α) (q : Parser β) : Parser β := fun s =>
  (p s).bind fun r1 => q r1.1

/-- Tail of a separated list: repeatedly parse separator-then-element, stopping
(and backtracking over the separator) as soon as either fails.  The fuel
argument bounds the iteration count; the separators used in this file always
consume at least one character, so `s.length` fuel is never exhausted. -/
def sepListTail {β α : Type} (sep : Parser β) (p : Parser α) : Nat → Input → (List α × Input)
  | 0, s => ([], s)
  | Nat.succ n, s =>
    match sep s with
    | none => ([], s)
    | some (s1, _) =>
      match p s1 with
      | none => ([], s)
      | some (s2, x) =>
        let r := sepListTail sep p n s2
        (x :: r.1, r.2)

/-- Embedding of nom's `separated_nonempty_list`: one element, then any number of
separator-prefixed elements. -/
def separated_nonempty_list {β α : Type} (sep : Parser β) (p : Parser α) : Parser (List α) :=
  fun s =>
    (p s).bind fun q =>
      let r := sepListTail sep p q.1.length q.1
      some (r.2, q.2 :: r.1)

/-- First character usable in an identifier. -/
def isIdentFirst (c : Char) : Bool := c.isAlpha || c == '_'

/-- Character usable inside an identifier. -/
def isIdentChar (c : Char) : Bool := c.isAlphanum || c == '_'

/-- Modelled from the spec: the external identifier token parser (trivia-skipping). -/
def identTok : Parser (List Char) := fun s =>
  match s.dropWhile isSpaceC with
  | [] => none
  | c :: cs =>
    if isIdentFirst c then
      some ((c :: cs).dropWhile isIdentChar, (c :: cs).takeWhile isIdentChar)
    else none

/-- Modelled from the spec: an unsigned number literal token (trivia-skipping). -/
def numberTok : Parser (List Char) := fun s =>
  match s.dropWhile isSpaceC with
  | [] => none
  | c :: cs =>
    if c.isDigit then
      some ((c :: cs).dropWhile Char.isDigit, (c :: cs).takeWhile Char.isDigit)
    else none

/-- A literal token parser that returns the matched literal as its value. -/
def tokP (k : List Char) : Parser (List Char) := fun s =>
  (symbol k s).map (fun r => (r.1, k))

-- ---------------------------------------------------------------------------
-- AST node types (mirroring the Rust data model; `nodes` fields keep the
-- production-order tuple structure of the source).
-- ---------------------------------------------------------------------------

/-- Modelled from the spec: an external statement node (identifier plus terminator). -/
structure Statement where
  nodes : List Char
deriving Repr, DecidableEq

/-- A statement, or an empty statement marked by a bare terminator. -/
inductive StatementOrNull where
  | Statement (s : Statement)
  | Null
deriving Repr, DecidableEq

/-- Modelled from the spec: an external expression node (sequence of operand tokens). -/
structure Expression where
  nodes : List (List Char)
deriving Repr, DecidableEq

/-- Modelled from the spec: an external data-type node (the type keyword). -/
structure DataType where
  nodes : List Char
deriving Repr, DecidableEq

/-- A plain variable assignment `identifier = expression`. -/
structure VariableAssignment where
  nodes : List Char × Expression
deriving Repr, DecidableEq

/-- A compound/operator assignment `lvalue op expression`. -/
structure OperatorAssignment where
  nodes : List Char × List Char × Expression
deriving Repr, DecidableEq

/-- An increment-or-decrement expression, in operator-first or operand-first order. -/
inductive IncOrDecExpression where
  | pre (op : List Char) (x : List Char)
  | post (x : List Char) (op : List Char)
deriving Repr, DecidableEq

/-- A subroutine (task/function) call, with optional parenthesized arguments. -/
structure SubroutineCall where
  nodes : List Char × Option (List Expression)
deriving Repr, DecidableEq

/-- A hierarchically/package-scope qualified array identifier. -/
structure PsOrHierarchicalArrayIdentifier where
  nodes : List (List Char)
deriving Repr, DecidableEq

abbrev VariableIdentifier := List Char
abbrev IndexVariableIdentifier := List Char

/-- The explicit-variable marker keyword. -/
structure Var where
deriving Repr, DecidableEq

structure ForVariableDeclaration where
  nodes : Option Var × DataType × List (VariableIdentifier × Expression)
deriving Repr, DecidableEq

inductive ForInitialization where
  | Assignment (xs : List VariableAssignment)
  | Declaration (xs : List ForVariableDeclaration)
deriving Repr, DecidableEq

inductive ForStepAssignment where
  | Operator (x : OperatorAssignment)
  | IncOrDec (x : IncOrDecExpression)
  | Subroutine (x : SubroutineCall)
deriving Repr, DecidableEq

structure LoopVariables where
  nodes : List (Option IndexVariableIdentifier)
deriving Repr, DecidableEq

structure LoopStatementForever where
  nodes : StatementOrNull
deriving Repr, DecidableEq

structure LoopStatementRepeat where
  nodes : Expression × StatementOrNull
deriving Repr, DecidableEq

structure LoopStatementWhile where
  nodes : Expression × StatementOrNull
deriving Repr, DecidableEq

structure LoopStatementFor where
  nodes : Option ForInitialization × Option Expression ×
          Option (List ForStepAssignment) × StatementOrNull
deriving Repr, DecidableEq

structure LoopStatementDoWhile where
  nodes : StatementOrNull × Expression
deriving Repr, DecidableEq

structure LoopStatementForeach where
  nodes : PsOrHierarchicalArrayIdentifier × LoopVariables × Statement
deriving Repr, DecidableEq

inductive LoopStatement where
  | Forever (x : LoopStatementForever)
  | Repeat (x : LoopStatementRepeat)
  | While (x : LoopStatementWhile)
  | For (x : LoopStatementFor)
  | DoWhile (x : LoopStatementDoWhile)
  | Foreach (x : LoopStatementForeach)
deriving Repr, DecidableEq

-- ---------------------------------------------------------------------------
-- External sub-grammars, modelled from the spec.
-- ---------------------------------------------------------------------------

/-- Modelled from the spec: the external statement parser (an identifier
statement followed by the terminator). -/
def statement : Parser Statement := fun s =>
  (identTok s).bind fun r1 =>
  (symbol [';'] r1.1).map fun r2 => (r2.1, Statement.mk r1.2)

/-- Modelled from the spec: a statement, or an empty statement marked by a bare
terminator. -/
def statement_or_null : Parser StatementOrNull :=
  altl [pmap StatementOrNull.Statement statement,
        pmap (fun _ => StatementOrNull.Null) (symbol [';'])]

/-- A primary operand of the modelled expression grammar. -/
def termTok : Parser (List Char) := altl [numberTok, identTok]

/-- A binary operator token of the modelled expression grammar. -/
def opTok : Parser (List Char) :=
  altl [tokP ['+'], tokP ['-'], tokP ['*'], tokP ['<'], tokP ['>']]

/-- Modelled from the spec: the external expression parser (operands separated
by binary operators). -/
def expression : Parser Expression :=
  pmap Expression.mk (separated_nonempty_list opTok termTok)

/-- Modelled from the spec: the external data-type parser (a type keyword). -/
def data_type : Parser DataType :=
  altl [pmap DataType.mk (tokP (strL "integer")),
        pmap DataType.mk (tokP (strL "int")),
        pmap DataType.mk (tokP (strL "logic")),
        pmap DataType.mk (tokP (strL "bit")),
        pmap DataType.mk (tokP (strL "byte")),
        pmap DataType.mk (tokP (strL "real"))]

/-- Modelled from the spec: the external variable-identifier parser. -/
def variable_identifier : Parser VariableIdentifier := identTok

/-- Modelled from the spec: the external index-variable-identifier parser. -/
def index_variable_identifier : Parser IndexVariableIdentifier := identTok

/-- Modelled from the spec: a plain variable assignment `identifier = expression`. -/
def variable_assignment : Parser VariableAssignment := fun s =>
  (identTok s).bind fun r1 =>
  (symbol ['='] r1.1).bind fun r2 =>
  (expression r2.1).map fun r3 => (r3.1, VariableAssignment.mk (r1.2, r3.2))

/-- Modelled from the spec: the external variable-assignment list parser. -/
def list_of_variable_assignments : Parser (List VariableAssignment) :=
  separated_nonempty_list (symbol [',']) variable_assignment

/-- An assignment operator token of the modelled operator-assignment grammar. -/
def assignOp : Parser (List Char) :=
  altl [tokP ['+', '='], tokP ['-', '='], tokP ['*', '='], tokP ['/', '='], tokP ['=']]

/-- Modelled from the spec: the external compound/operator assignment parser. -/
def operator_assignment : Parser OperatorAssignment := fun s =>
  (identTok s).bind fun r1 =>
  (assignOp r1.1).bind fun r2 =>
  (expression r2.1).map fun r3 => (r3.1, OperatorAssignment.mk (r1.2, r2.2, r3.2))

/-- An increment/decrement operator token. -/
def incOrDecOp : Parser (List Char) := altl [tokP ['+', '+'], tokP ['-', '-']]

/-- Modelled from the spec: the external increment-or-decrement expression parser. -/
def inc_or_dec_expression : Parser IncOrDecExpression :=
  altl [fun s =>
          (incOrDecOp s).bind fun r1 =>
          (identTok r1.1).map fun r2 => (r2.1, IncOrDecExpression.pre r1.2 r2.2),
        fun s =>
          (identTok s).bind fun r1 =>
          (incOrDecOp r1.1).map fun r2 => (r2.1, IncOrDecExpression.post r1.2 r2.2)]

/-- A parenthesized argument list for a subroutine call. -/
def subroutineArgs : Parser (List Expression) := fun s =>
  (symbol ['('] s).bind fun r1 =>
  (opt (separated_nonempty_list (symbol [',']) expression) r1.1).bind fun r2 =>
  (symbol [')'] r2.1).map fun r3 => (r3.1, r2.2.getD [])

/-- Modelled from the spec: the external subroutine (task/function) call parser. -/
def function_subroutine_call : Parser SubroutineCall := fun s =>
  (identTok s).bind fun r1 =>
  match subroutineArgs r1.1 with
  | some (t, args) => some (t, SubroutineCall.mk (r1.2, some args))
  | none => some (r1.1, SubroutineCall.mk (r1.2, none))

/-- Modelled from the spec: the external hierarchical/package-scoped
array-identifier parser. -/
def ps_or_hierarchical_array_identifier : Parser PsOrHierarchicalArrayIdentifier :=
  pmap PsOrHierarchicalArrayIdentifier.mk
    (separated_nonempty_list (altl [tokP [':', ':'], tokP ['.']]) identTok)

-- ---------------------------------------------------------------------------
-- Keyword constants.
-- ---------------------------------------------------------------------------

def kwForever : List Char := ['f', 'o', 'r', 'e', 'v', 'e', 'r']
def kwRepeat : List Char := ['r', 'e', 'p', 'e', 'a', 't']
def kwWhile : List Char := ['w', 'h', 'i', 'l', 'e']
def kwFor : List Char := ['f', 'o', 'r']
def kwDo : List Char := ['d', 'o']
def kwForeach : List Char := ['f', 'o', 'r', 'e', 'a', 'c', 'h']
def kwVar : List Char := ['v', 'a', 'r']

-- ---------------------------------------------------------------------------
-- The nine functions of the source file, translated line by line.
-- ---------------------------------------------------------------------------

/-- Source `loop_statement_forever`. -/
def loop_statement_forever : Parser LoopStatement := fun s =>
  (symbol kwForever s).bind fun r1 =>
  (statement_or_null r1.1).map fun r2 =>
  (r2.1, LoopStatement.Forever (LoopStatementForever.mk r2.2))

/-- Source `loop_statement_repeat`. -/
def loop_statement_repeat : Parser LoopStatement := fun s =>
  (symbol kwRepeat s).bind fun r1 =>
  (symbol ['('] r1.1).bind fun r2 =>
  (expression r2.1).bind fun r3 =>
  (symbol [')'] r3.1).bind fun r4 =>
  (statement_or_null r4.1).map fun r5 =>
  (r5.1, LoopStatement.Repeat (LoopStatementRepeat.mk (r3.2, r5.2)))

/-- Source `loop_statement_while`. -/
def loop_statement_while : Parser LoopStatement := fun s =>
  (symbol kwWhile s).bind fun r1 =>
  (symbol ['('] r1.1).bind fun r2 =>
  (expression r2.1).bind fun r3 =>
  (symbol [')'] r3.1).bind fun r4 =>
  (statement_or_null r4.1).map fun r5 =>
  (r5.1, LoopStatement.While (LoopStatementWhile.mk (r3.2, r5.2)))

/-- Source `for_variable_declaration`. -/
def for_variable_declaration : Parser ForVariableDeclaration := fun s =>
  (opt (symbol kwVar) s).bind fun r1 =>
  (data_type r1.1).bind fun r2 =>
  (separated_nonempty_list (symbol [','])
      (pairP variable_identifier (precededP (symbol ['=']) expression)) r2.1).map fun r3 =>
  (r3.1, ForVariableDeclaration.mk (r1.2.map fun _ => Var.mk, r2.2, r3.2))

/-- Source `for_initialization`: ordered alternation between the assignment-list
trial and the declaration-list trial. -/
def for_initialization : Parser ForInitialization :=
  altl [pmap ForInitialization.Assignment list_of_variable_assignments,
        pmap ForInitialization.Declaration
          (separated_nonempty_list (symbol [',']) for_variable_declaration)]

/-- Source `for_step_assignment`: ordered alternation between operator
assignment, increment-or-decrement expression, and subroutine call. -/
def for_step_assignment : Parser ForStepAssignment :=
  altl [pmap ForStepAssignment.Operator operator_assignment,
        pmap ForStepAssignment.IncOrDec inc_or_dec_expression,
        pmap ForStepAssignment.Subroutine function_subroutine_call]

/-- Source `for_step`. -/
def for_step : Parser (List ForStepAssignment) :=
  separated_nonempty_list (symbol [',']) for_step_assignment

/-- Source `loop_statement_for`. -/
def loop_statement_for : Parser LoopStatement := fun s =>
  (symbol kwFor s).bind fun r1 =>
  (symbol ['('] r1.1).bind fun r2 =>
  (opt for_initialization r2.1).bind fun r3 =>
  (symbol [';'] r3.1).bind fun r4 =>
  (opt expression r4.1).bind fun r5 =>
  (symbol [';'] r5.1).bind fun r6 =>
  (opt for_step r6.1).bind fun r7 =>
  (symbol [')'] r7.1).bind fun r8 =>
  (statement_or_null r8.1).map fun r9 =>
  (r9.1, LoopStatement.For (LoopStatementFor.mk (r3.2, r5.2, r7.2, r9.2)))

/-- Source `loop_statement_do_while`. -/
def loop_statement_do_while : Parser LoopStatement := fun s =>
  (symbol kwDo s).bind fun r1 =>
  (statement_or_null r1.1).bind fun r2 =>
  (symbol kwWhile r2.1).bind fun r3 =>
  (symbol ['('] r3.1).bind fun r4 =>
  (expression r4.1).bind fun r5 =>
  (symbol [')'] r5.1).bind fun r6 =>
  (symbol [';'] r6.1).map fun r7 =>
  (r7.1, LoopStatement.DoWhile (LoopStatementDoWhile.mk (r2.2, r5.2)))

/-- Source `loop_variables`. -/
def loop_variables : Parser LoopVariables :=
  pmap LoopVariables.mk
    (separated_nonempty_list (symbol [',']) (opt index_variable_identifier))

/-- Source `loop_statement_foreach`. -/
def loop_statement_foreach : Parser LoopStatement := fun s =>
  (symbol kwForeach s).bind fun r1 =>
  (symbol ['('] r1.1).bind fun r2 =>
  (ps_or_hierarchical_array_identifier r2.1).bind fun r3 =>
  (symbol ['['] r3.1).bind fun r4 =>
  (loop_variables r4.1).bind fun r5 =>
  (symbol [']'] r5.1).bind fun r6 =>
  (symbol [')'] r6.1).bind fun r7 =>
  (statement r7.1).map fun r8 =>
  (r8.1, LoopStatement.Foreach (LoopStatementForeach.mk (r3.2, r5.2, r8.2)))

/-- Source `loop_statement`: the dispatcher, an ordered alternation over the six
variant parsers. -/
def loop_statement : Parser LoopStatement :=
  altl [loop_statement_forever, loop_statement_repeat, loop_statement_while,
        loop_statement_for, loop_statement_do_while, loop_statement_foreach]

-- ---------------------------------------------------------------------------
-- Helper lemmas.
-- ---------------------------------------------------------------------------

/-- `opt` never fails. -/
lemma opt_always {α : Type} (p : Parser α) (s : Input) :
    ∃ t x, opt p s = some (t, x) := by
  unfold opt
  cases hp : p s with
  | none => exact ⟨s, none, rfl⟩
  | some r => exact ⟨r.1, some r.2, by rw [← hp]; cases hp' : p s <;> simp_all⟩

/-- A successful literal strip decomposes the input. -/
lemma stripKw_eq_append {k : List Char} :
    ∀ {d t : Input}, stripKw k d = some t → d = k ++ t := by
  induction k with
  | nil => intro d t h; simp [stripKw] at h; simp [h]
  | cons a k ih =>
    intro d t h
    cases d with
    | nil => simp [stripKw] at h
    | cons b d' =>
      simp only [stripKw] at h
      split at h
      · rename_i hab
        subst hab
        rw [List.cons_append, ih h]
      · exact absurd h (by simp)

/-- A successful `symbol` match decomposes the trivia-stripped input. -/
lemma symbol_some {k : List Char} {s t : Input} {u : Unit}
    (h : symbol k s = some (t, u)) : s.dropWhile isSpaceC = k ++ t := by
  unfold symbol at h
  cases hs : stripKw k (s.dropWhile isSpaceC) with
  | none => rw [hs] at h; simp at h
  | some t' =>
    rw [hs] at h
    simp only [Option.map_some', Option.some.injEq, Prod.mk.injEq] at h
    exact h.1 ▸ stripKw_eq_append hs

-- ---------------------------------------------------------------------------
-- C1: initializer disambiguation order and backtracking.
-- ---------------------------------------------------------------------------

/-- C1: `for_initialization` attempts the assignment-list trial first; when that
trial succeeds its result is the whole result, and when it fails (which, in this
embedding, leaves behind no partial assignment node and no advanced cursor,
failure being the bare value `none`), the declaration-list trial is run from
exactly the original starting position `s`. -/
theorem for_initialization_trial_order (s : Input) :
    (∀ r, list_of_variable_assignments s = some r →
      for_initialization s = some (r.1, ForInitialization.Assignment r.2)) ∧
    (list_of_variable_assignments s = none →
      for_initialization s =
        pmap ForInitialization.Declaration
          (separated_nonempty_list (symbol [',']) for_variable_declaration) s) := by
  constructor
  · intro r h
    simp [for_initialization, altl, pmap, h]
  · intro h
    have hA : pmap ForInitialization.Assignment list_of_variable_assignments s = none := by
      simp [pmap, h]
    cases hB : pmap ForInitialization.Declaration
        (separated_nonempty_list (symbol [',']) for_variable_declaration) s with
    | none => simp [for_initialization, altl, hA, hB]
    | some v => simp [for_initialization, altl, hA, hB]

/-- Witness for C1: on `"int i = 0"` the assignment-list trial fails and the
declaration-list trial, run at the same position, produces the declaration; on
`"i = 0"` the assignment-list trial itself wins. -/
theorem for_initialization_trial_order_witness :
    (list_of_variable_assignments (strL "int i = 0") = none ∧
      for_initialization (strL "int i = 0") =
        pmap ForInitialization.Declaration
          (separated_nonempty_list (symbol [',']) for_variable_declaration)
          (strL "int i = 0")) ∧
    for_initialization (strL "i = 0") =
      some ([], ForInitialization.Assignment
        [VariableAssignment.mk (['i'], Expression.mk [['0']])]) :=
  ⟨⟨rfl, (for_initialization_trial_order (strL "int i = 0")).2 rfl⟩,
   (for_initialization_trial_order (strL "i = 0")).1 _ rfl⟩

-- ---------------------------------------------------------------------------
-- C2: failure of both trials is a failure, and the example input fails.
-- ---------------------------------------------------------------------------

/-- C2: `for_initialization` fails exactly when both the assignment-list trial and
the declaration-list trial fail; on the non-empty initializer `"i++; ;)"` both
trials fail, and the whole for-statement `"for (i++; ;)"` fails to parse. -/
theorem for_initialization_both_trials_fail :
    (∀ s : Input, for_initialization s = none ↔
      (list_of_variable_assignments s = none ∧
       separated_nonempty_list (symbol [',']) for_variable_declaration s = none)) ∧
    for_initialization (strL "i++; ;)") = none ∧
    loop_statement (strL "for (i++; ;)") = none := by
  refine ⟨?_, rfl, rfl⟩
  intro s
  cases ha : list_of_variable_assignments s <;>
    cases hd : separated_nonempty_list (symbol [',']) for_variable_declaration s <;>
    simp [for_initialization, altl, pmap, ha, hd]

-- ---------------------------------------------------------------------------
-- C4: dispatcher failure is non-consuming.
-- ---------------------------------------------------------------------------

/-- C4: when `loop_statement` fails, the failure is the bare value `none`: it
carries no partial AST node and no cursor, so an enclosing ordered alternation
continues with the other alternatives at exactly the original position `s`
(and, the embedding being a total function, re-attempting at `s` deterministically
fails again and nothing panics). -/
theorem loop_statement_failure_non_consuming
    (s : Input) (qs : List (Parser LoopStatement))
    (h : loop_statement s = none) :
    altl (loop_statement :: qs) s = altl qs s ∧
    ∀ r, loop_statement s ≠ some r := by
  constructor
  · simp [altl, h]
  · intro r hr
    rw [h] at hr
    exact Option.noConfusion hr

/-- Witness for C4 at the spec's own example of an unterminated input. -/
theorem loop_statement_failure_non_consuming_witness :
    altl (loop_statement :: []) (strL "while (x") = altl [] (strL "while (x") ∧
    ∀ r, loop_statement (strL "while (x") ≠ some r :=
  loop_statement_failure_non_consuming (strL "while (x") [] rfl

-- ---------------------------------------------------------------------------
-- C6: step-clause element alternatives are tried in fixed order.
-- ---------------------------------------------------------------------------

/-- C6: each element of the step clause tries, in this fixed order, operator
assignment, then increment-or-decrement expression, then subroutine call, the
first success winning; and the step clause itself is a non-empty list. -/
theorem for_step_assignment_priority (s : Input) :
    (∀ r, operator_assignment s = some r →
      for_step_assignment s = some (r.1, ForStepAssignment.Operator r.2)) ∧
    (operator_assignment s = none →
      ∀ r, inc_or_dec_expression s = some r →
        for_step_assignment s = some (r.1, ForStepAssignment.IncOrDec r.2)) ∧
    (operator_assignment s = none → inc_or_dec_expression s = none →
      ∀ r, function_subroutine_call s = some r →
        for_step_assignment s = some (r.1, ForStepAssignment.Subroutine r.2)) ∧
    (∀ l, for_step s = some l → l.2 ≠ []) := by
  refine ⟨?_, ?_, ?_, ?_⟩
  · intro r h
    simp [for_step_assignment, altl, pmap, h]
  · intro h1 r h
    simp [for_step_assignment, altl, pmap, h1, h]
  · intro h1 h2 r h
    simp [for_step_assignment, altl, pmap, h1, h2, h]
  · intro l h
    cases hq : for_step_assignment s with
    | none => simp [for_step, separated_nonempty_list, hq] at h
    | some q =>
      simp only [for_step, separated_nonempty_list, hq, Option.some_bind,
        Option.some.injEq] at h
      rw [← h]
      simp

/-- Witness for C6: one concrete element of each kind, each resolved by the
stated priority. -/
theorem for_step_assignment_priority_witness :
    for_step_assignment (strL "i += 1") =
      some ([], ForStepAssignment.Operator
        (OperatorAssignment.mk (['i'], ['+', '='], Expression.mk [['1']]))) ∧
    for_step_assignment (strL "i++") =
      some ([], ForStepAssignment.IncOrDec (IncOrDecExpression.post ['i'] ['+', '+'])) ∧
    for_step_assignment (strL "f(x)") =
      some ([], ForStepAssignment.Subroutine
        (SubroutineCall.mk (['f'], some [Expression.mk [['x']]]))) :=
  ⟨(for_step_assignment_priority (strL "i += 1")).1 _ rfl,
   (for_step_assignment_priority (strL "i++")).2.1 rfl _ rfl,
   (for_step_assignment_priority (strL "f(x)")).2.2.1 rfl rfl _ rfl⟩

-- ---------------------------------------------------------------------------
-- C7: loop-variable list slots.
-- ---------------------------------------------------------------------------

/-- C7: `loop_variables` parses a comma-separated list with at least one slot,
each slot independently an identifier (`some`) or an empty placeholder (`none`)
at its exact ordinal position; on the variable list of
`"foreach (arr[i, , j]) stmt;"` it yields `[some i, none, some j]` with all
three slots preserved. -/
theorem loop_variables_slots :
    (∀ (s : Input) r, loop_variables s = some r → r.2.nodes ≠ []) ∧
    loop_variables (strL "i, , j]") =
      some ([']'], LoopVariables.mk [some ['i'], none, some ['j']]) ∧
    loop_statement (strL "foreach (arr[i, , j]) stmt;") =
      some ([], LoopStatement.Foreach (LoopStatementForeach.mk
        (PsOrHierarchicalArrayIdentifier.mk [['a', 'r', 'r']],
         LoopVariables.mk [some ['i'], none, some ['j']],
         Statement.mk ['s', 't', 'm', 't']))) := by
  refine ⟨?_, rfl, rfl⟩
  intro s r h
  obtain ⟨t, x, ho⟩ := opt_always index_variable_identifier s
  simp only [loop_variables, pmap, separated_nonempty_list, ho, Option.some_bind,
    Option.map_some', Option.some.injEq] at h
  rw [← h]
  simp

/-- Witness for C7: the slot list parsed from the example is non-empty. -/
theorem loop_variables_slots_witness :
    (LoopVariables.mk [some ['i'], none, some ['j']]).nodes ≠ [] :=
  loop_variables_slots.1 (strL "i, , j]")
    ([']'], LoopVariables.mk [some ['i'], none, some ['j']]) rfl

-- ---------------------------------------------------------------------------
-- C8: foreach body is a mandatory statement; target is a scoped identifier.
-- ---------------------------------------------------------------------------

/-- C8: `loop_statement_foreach` rejects an empty body even though the bare
terminator would be accepted by `statement_or_null` (the body is parsed by the
mandatory `statement` grammar), and its target is parsed by the
hierarchical/package-scoped array-identifier grammar, as the qualified target
`p::a.b` shows. -/
theorem loop_statement_foreach_mandatory_body :
    loop_statement_foreach (strL "foreach (arr[i]) ;") = none ∧
    statement_or_null (strL " ;") = some ([], StatementOrNull.Null) ∧
    loop_statement_foreach (strL "foreach (arr[i]) x;") =
      some ([], LoopStatement.Foreach (LoopStatementForeach.mk
        (PsOrHierarchicalArrayIdentifier.mk [['a', 'r', 'r']],
         LoopVariables.mk [some ['i']],
         Statement.mk ['x']))) ∧
    loop_statement_foreach (strL "foreach (p::a.b[i]) x;") =
      some ([], LoopStatement.Foreach (LoopStatementForeach.mk
        (PsOrHierarchicalArrayIdentifier.mk [['p'], ['a'], ['b']],
         LoopVariables.mk [some ['i']],
         Statement.mk ['x']))) :=
  ⟨rfl, rfl, rfl, rfl⟩

-- ---------------------------------------------------------------------------
-- C10 (corrected): totality of loop_variables.
-- ---------------------------------------------------------------------------

/-- C10 counterexample: at `", x]"` no identifier is present at the first
position, yet `loop_variables` does not return the unconsumed single-slot list
`[none]`; it consumes the comma and the identifier, returning two slots. -/
theorem loop_variables_first_slot_counterexample :
    index_variable_identifier (strL ", x]") = none ∧
    loop_variables (strL ", x]") = some ([']'], LoopVariables.mk [none, some ['x']]) ∧
    ¬ loop_variables (strL ", x]") = some (strL ", x]", LoopVariables.mk [none]) := by
  refine ⟨rfl, rfl, ?_⟩
  decide

/-- C10 (amended): `loop_variables` never fails — it always succeeds with at
least one slot — and when neither an identifier nor a comma continuation is
present at the first position (as with the empty brackets of
`"foreach (arr[]) stmt;"`) it succeeds without consuming input, returning the
single-slot list `[none]`. -/
theorem loop_variables_total_amended :
    (∀ s : Input, ∃ r, loop_variables s = some r ∧ r.2.nodes ≠ []) ∧
    (∀ s : Input, index_variable_identifier s = none → symbol [','] s = none →
      loop_variables s = some (s, LoopVariables.mk [none])) ∧
    loop_statement (strL "foreach (arr[]) stmt;") =
      some ([], LoopStatement.Foreach (LoopStatementForeach.mk
        (PsOrHierarchicalArrayIdentifier.mk [['a', 'r', 'r']],
         LoopVariables.mk [none],
         Statement.mk ['s', 't', 'm', 't']))) := by
  refine ⟨?_, ?_, rfl⟩
  · intro s
    obtain ⟨t, x, ho⟩ := opt_always index_variable_identifier s
    have hv : loop_variables s = some
        ((sepListTail (symbol [',']) (opt index_variable_identifier) t.length t).2,
         LoopVariables.mk
           (x :: (sepListTail (symbol [',']) (opt index_variable_identifier) t.length t).1)) := by
      simp [loop_variables, pmap, separated_nonempty_list, ho]
    exact ⟨_, hv, by simp⟩
  · intro s h1 h2
    have hopt : opt index_variable_identifier s = some (s, none) := by
      simp [opt, h1]
    have htail : sepListTail (symbol [',']) (opt index_variable_identifier)
        s.length s = ([], s) := by
      cases hl : s.length with
      | zero => simp [sepListTail]
      | succ n => simp [sepListTail, h2]
    simp [loop_variables, pmap, separated_nonempty_list, hopt, htail]

/-- Witness for C10 (amended): at the list position of `"foreach (arr[]) stmt;"`
the slot list is `[none]` and nothing is consumed. -/
theorem loop_variables_total_amended_witness :
    loop_variables (strL "]) stmt;") =
      some (strL "]) stmt;", LoopVariables.mk [none]) :=
  loop_variables_total_amended.2.1 (strL "]) stmt;") rfl rfl

-- ---------------------------------------------------------------------------
-- C3: shape of the three-clause for statement.
-- ---------------------------------------------------------------------------

/-- C3: `loop_statement_for` succeeds exactly on `for` `(` [init] `;` [cond] `;`
[step] `)` statement-or-null — the three clauses independently optional (the
`opt` steps never fail), the two semicolons and both parentheses mandatory —
and the `For` node holds (init, cond, step, body) in production order; witnessed
concretely by an all-absent success, a one-semicolon failure, and a
missing-second-semicolon failure. -/
theorem loop_statement_for_shape :
    (∀ (s t : Input) (r : LoopStatement),
      loop_statement_for s = some (t, r) ↔
        ∃ (s1 s2 s3 s4 s5 s6 s7 s8 : Input) (x : Option ForInitialization)
          (y : Option Expression) (z : Option (List ForStepAssignment))
          (v : StatementOrNull),
          symbol kwFor s = some (s1, ()) ∧
          symbol ['('] s1 = some (s2, ()) ∧
          opt for_initialization s2 = some (s3, x) ∧
          symbol [';'] s3 = some (s4, ()) ∧
          opt expression s4 = some (s5, y) ∧
          symbol [';'] s5 = some (s6, ()) ∧
          opt for_step s6 = some (s7, z) ∧
          symbol [')'] s7 = some (s8, ()) ∧
          statement_or_null s8 = some (t, v) ∧
          r = LoopStatement.For (LoopStatementFor.mk (x, y, z, v))) ∧
    loop_statement_for (strL "for (;;) ;") =
      some ([], LoopStatement.For
        (LoopStatementFor.mk (none, none, none, StatementOrNull.Null))) ∧
    loop_statement_for (strL "for (;) ;") = none ∧
    loop_statement_for (strL "for (i = 0; i < 10) ;") = none := by
  refine ⟨?_, rfl, rfl, rfl⟩
  intro s t r
  constructor
  · intro h
    simp only [loop_statement_for, Option.bind_eq_some, Option.map_eq_some'] at h
    obtain ⟨⟨s1, u1⟩, h1, h⟩ := h
    obtain ⟨⟨s2, u2⟩, h2, h⟩ := h
    obtain ⟨⟨s3, x⟩, h3, h⟩ := h
    obtain ⟨⟨s4, u4⟩, h4, h⟩ := h
    obtain ⟨⟨s5, y⟩, h5, h⟩ := h
    obtain ⟨⟨s6, u6⟩, h6, h⟩ := h
    obtain ⟨⟨s7, z⟩, h7, h⟩ := h
    obtain ⟨⟨s8, u8⟩, h8, h⟩ := h
    obtain ⟨⟨s9, v⟩, h9, h⟩ := h
    cases h
    exact ⟨s1, s2, s3, s4, s5, s6, s7, s8, x, y, z, v, h1, h2, h3, h4, h5, h6, h7,
      h8, h9, rfl⟩
  · rintro ⟨s1, s2, s3, s4, s5, s6, s7, s8, x, y, z, v,
      h1, h2, h3, h4, h5, h6, h7, h8, h9, rfl⟩
    simp [loop_statement_for, h1, h2, h3, h4, h5, h6, h7, h8, h9]

-- ---------------------------------------------------------------------------
-- C9: shape of the do-while statement.
-- ---------------------------------------------------------------------------

/-- C9: `loop_statement_do_while` succeeds exactly on `do` statement-or-null
`while` `(` expression `)` `;`, the final terminator being a mandatory distinct
token (omitting it fails even though the inner statement already ends in one),
and the `DoWhile` node holds (body, condition) in that order. -/
theorem loop_statement_do_while_shape :
    (∀ (s t : Input) (r : LoopStatement),
      loop_statement_do_while s = some (t, r) ↔
        ∃ (s1 s2 s3 s4 s5 s6 : Input) (v : StatementOrNull) (y : Expression),
          symbol kwDo s = some (s1, ()) ∧
          statement_or_null s1 = some (s2, v) ∧
          symbol kwWhile s2 = some (s3, ()) ∧
          symbol ['('] s3 = some (s4, ()) ∧
          expression s4 = some (s5, y) ∧
          symbol [')'] s5 = some (s6, ()) ∧
          symbol [';'] s6 = some (t, ()) ∧
          r = LoopStatement.DoWhile (LoopStatementDoWhile.mk (v, y))) ∧
    loop_statement_do_while (strL "do x; while (y) ;") =
      some ([], LoopStatement.DoWhile (LoopStatementDoWhile.mk
        (StatementOrNull.Statement (Statement.mk ['x']), Expression.mk [['y']]))) ∧
    loop_statement_do_while (strL "do x; while (y)") = none := by
  refine ⟨?_, rfl, rfl⟩
  intro s t r
  constructor
  · intro h
    simp only [loop_statement_do_while, Option.bind_eq_some, Option.map_eq_some'] at h
    obtain ⟨⟨s1, u1⟩, h1, h⟩ := h
    obtain ⟨⟨s2, v⟩, h2, h⟩ := h
    obtain ⟨⟨s3, u3⟩, h3, h⟩ := h
    obtain ⟨⟨s4, u4⟩, h4, h⟩ := h
    obtain ⟨⟨s5, y⟩, h5, h⟩ := h
    obtain ⟨⟨s6, u6⟩, h6, h⟩ := h
    obtain ⟨⟨s7, u7⟩, h7, h⟩ := h
    cases h
    exact ⟨s1, s2, s3, s4, s5, s6, v, y, h1, h2, h3, h4, h5, h6, h7, rfl⟩
  · rintro ⟨s1, s2, s3, s4, s5, s6, v, y, h1, h2, h3, h4, h5, h6, h7, rfl⟩
    simp [loop_statement_do_while, h1, h2, h3, h4, h5, h6, h7]

-- ---------------------------------------------------------------------------
-- C5: the six variants are mutually exclusive, so dispatcher order is irrelevant.
-- ---------------------------------------------------------------------------

/-- A successful `forever` variant pins the leading keyword. -/
lemma forever_head {s : Input} {r : Input × LoopStatement}
    (h : loop_statement_forever s = some r) :
    ∃ t, s.dropWhile isSpaceC = ['f', 'o', 'r', 'e', 'v', 'e', 'r'] ++ t := by
  unfold loop_statement_forever at h
  cases h1 : symbol kwForever s with
  | none => rw [h1] at h; simp at h
  | some p =>
    obtain ⟨t, u⟩ := p
    exact ⟨t, symbol_some h1⟩

/-- A successful `repeat` variant pins the leading keyword. -/
lemma repeat_head {s : Input} {r : Input × LoopStatement}
    (h : loop_statement_repeat s = some r) :
    ∃ t, s.dropWhile isSpaceC = ['r', 'e', 'p', 'e', 'a', 't'] ++ t := by
  unfold loop_statement_repeat at h
  cases h1 : symbol kwRepeat s with
  | none => rw [h1] at h; simp at h
  | some p =>
    obtain ⟨t, u⟩ := p
    exact ⟨t, symbol_some h1⟩

/-- A successful `while` variant pins the leading keyword. -/
lemma while_head {s : Input} {r : Input × LoopStatement}
    (h : loop_statement_while s = some r) :
    ∃ t, s.dropWhile isSpaceC = ['w', 'h', 'i', 'l', 'e'] ++ t := by
  unfold loop_statement_while at h
  cases h1 : symbol kwWhile s with
  | none => rw [h1] at h; simp at h
  | some p =>
    obtain ⟨t, u⟩ := p
    exact ⟨t, symbol_some h1⟩

/-- A successful `do`-`while` variant pins the leading keyword. -/
lemma do_while_head {s : Input} {r : Input × LoopStatement}
    (h : loop_statement_do_while s = some r) :
    ∃ t, s.dropWhile isSpaceC = ['d', 'o'] ++ t := by
  unfold loop_statement_do_while at h
  cases h1 : symbol kwDo s with
  | none => rw [h1] at h; simp at h
  | some p =>
    obtain ⟨t, u⟩ := p
    exact ⟨t, symbol_some h1⟩

/-- A successful `foreach` variant pins the leading keyword. -/
lemma foreach_head {s : Input} {r : Input × LoopStatement}
    (h : loop_statement_foreach s = some r) :
    ∃ t, s.dropWhile isSpaceC = ['f', 'o', 'r', 'e', 'a', 'c', 'h'] ++ t := by
  unfold loop_statement_foreach at h
  cases h1 : symbol kwForeach s with
  | none => rw [h1] at h; simp at h
  | some p =>
    obtain ⟨t, u⟩ := p
    exact ⟨t, symbol_some h1⟩

/-- A successful `for` variant pins the leading keyword and the following
parenthesis. -/
lemma for_head {s : Input} {r : Input × LoopStatement}
    (h : loop_statement_for s = some r) :
    ∃ t t2, s.dropWhile isSpaceC = ['f', 'o', 'r'] ++ t ∧
      t.dropWhile isSpaceC = ['('] ++ t2 := by
  unfold loop_statement_for at h
  cases h1 : symbol kwFor s with
  | none => rw [h1] at h; simp at h
  | some p =>
    obtain ⟨t, u⟩ := p
    rw [h1, Option.some_bind] at h
    cases h2 : symbol ['('] t with
    | none => rw [h2] at h; simp at h
    | some p2 =>
      obtain ⟨t2, u2⟩ := p2
      exact ⟨t, t2, symbol_some h1, symbol_some h2⟩

/-- Two distinct leading characters cannot both begin the same input. -/
lemma head_char_conflict {a b : Char} {k1 k2 t1 t2 d : List Char}
    (hab : a ≠ b) (h1 : d = (a :: k1) ++ t1) (h2 : d = (b :: k2) ++ t2) : False := by
  subst h1
  simp only [List.cons_append, List.cons.injEq] at h2
  exact hab h2.1

/-- `forever` and `foreach` cannot both begin the same input. -/
lemma forever_foreach_conflict {t1 t2 d : List Char}
    (h1 : d = ['f', 'o', 'r', 'e', 'v', 'e', 'r'] ++ t1)
    (h2 : d = ['f', 'o', 'r', 'e', 'a', 'c', 'h'] ++ t2) : False := by
  subst h1
  simp only [List.cons_append, List.cons.injEq, List.nil_append] at h2
  exact absurd h2.2.2.2.2.1 (by decide)

/-- `for` followed by `(` and `forever` cannot both begin the same input. -/
lemma for_forever_conflict {t t2 t3 d : List Char}
    (h1 : d = ['f', 'o', 'r'] ++ t) (hp : t.dropWhile isSpaceC = ['('] ++ t2)
    (h2 : d = ['f', 'o', 'r', 'e', 'v', 'e', 'r'] ++ t3) : False := by
  subst h1
  simp only [List.cons_append, List.cons.injEq, List.nil_append] at h2
  rw [h2.2.2.2] at hp
  rw [List.dropWhile_cons] at hp
  rw [(by decide : isSpaceC 'e' = false)] at hp
  simp only [Bool.false_eq_true, if_false, List.cons_append, List.cons.injEq,
    List.nil_append] at hp
  exact absurd hp.1 (by decide)

/-- `for` followed by `(` and `foreach` cannot both begin the same input. -/
lemma for_foreach_conflict {t t2 t3 d : List Char}
    (h1 : d = ['f', 'o', 'r'] ++ t) (hp : t.dropWhile isSpaceC = ['('] ++ t2)
    (h2 : d = ['f', 'o', 'r', 'e', 'a', 'c', 'h'] ++ t3) : False := by
  subst h1
  simp only [List.cons_append, List.cons.injEq, List.nil_append] at h2
  rw [h2.2.2.2] at hp
  rw [List.dropWhile_cons] at hp
  rw [(by decide : isSpaceC 'e' = false)] at hp
  simp only [Bool.false_eq_true, if_false, List.cons_append, List.cons.injEq,
    List.nil_append] at hp
  exact absurd hp.1 (by decide)

/-- Any two of the six variant parsers that both succeed on the same input agree
on the result: the unique leading keywords make success mutually exclusive. -/
lemma loop_variant_agree (s : Input) :
    ∀ p ∈ [loop_statement_forever, loop_statement_repeat, loop_statement_while,
           loop_statement_for, loop_statement_do_while, loop_statement_foreach],
    ∀ q ∈ [loop_statement_forever, loop_statement_repeat, loop_statement_while,
           loop_statement_for, loop_statement_do_while, loop_statement_foreach],
    ∀ a b : Input × LoopStatement, p s = some a → q s = some b → a = b := by
  intro p hp q hq a b hpa hqb
  simp only [List.mem_cons, List.not_mem_nil, or_false] at hp hq
  rcases hp with rfl | rfl | rfl | rfl | rfl | rfl <;>
    rcases hq with rfl | rfl | rfl | rfl | rfl | rfl
  · rw [hpa] at hqb
    exact Option.some.inj hqb
  · exfalso
    obtain ⟨thpa, hhpa⟩ := forever_head hpa
    obtain ⟨thqb, hhqb⟩ := repeat_head hqb
    exact head_char_conflict (by decide) hhpa hhqb
  · exfalso
    obtain ⟨thpa, hhpa⟩ := forever_head hpa
    obtain ⟨thqb, hhqb⟩ := while_head hqb
    exact head_char_conflict (by decide) hhpa hhqb
  · exfalso
    obtain ⟨thpa, hhpa⟩ := forever_head hpa
    obtain ⟨thqba, thqbb, hhqb1, hhqb2⟩ := for_head hqb
    exact for_forever_conflict hhqb1 hhqb2 hhpa
  · exfalso
    obtain ⟨thpa, hhpa⟩ := forever_head hpa
    obtain ⟨thqb, hhqb⟩ := do_while_head hqb
    exact head_char_conflict (by decide) hhpa hhqb
  · exfalso
    obtain ⟨thpa, hhpa⟩ := forever_head hpa
    obtain ⟨thqb, hhqb⟩ := foreach_head hqb
    exact forever_foreach_conflict hhpa hhqb
  · exfalso
    obtain ⟨thpa, hhpa⟩ := repeat_head hpa
    obtain ⟨thqb, hhqb⟩ := forever_head hqb
    exact head_char_conflict (by decide) hhpa hhqb
  · rw [hpa] at hqb
    exact Option.some.inj hqb
  · exfalso
    obtain ⟨thpa, hhpa⟩ := repeat_head hpa
    obtain ⟨thqb, hhqb⟩ := while_head hqb
    exact head_char_conflict (by decide) hhpa hhqb
  · exfalso
    obtain ⟨thpa, hhpa⟩ := repeat_head hpa
    obtain ⟨thqba, thqbb, hhqb1, hhqb2⟩ := for_head hqb
    exact head_char_conflict (by decide) hhpa hhqb1
  · exfalso
    obtain ⟨thpa, hhpa⟩ := repeat_head hpa
    obtain ⟨thqb, hhqb⟩ := do_while_head hqb
    exact head_char_conflict (by decide) hhpa hhqb
  · exfalso
    obtain ⟨thpa, hhpa⟩ := repeat_head hpa
    obtain ⟨thqb, hhqb⟩ := foreach_head hqb
    exact head_char_conflict (by decide) hhpa hhqb
  · exfalso
    obtain ⟨thpa, hhpa⟩ := while_head hpa
    obtain ⟨thqb, hhqb⟩ := forever_head hqb
    exact head_char_conflict (by decide) hhpa hhqb
  · exfalso
    obtain ⟨thpa, hhpa⟩ := while_head hpa
    obtain ⟨thqb, hhqb⟩ := repeat_head hqb
    exact head_char_conflict (by decide) hhpa hhqb
  · rw [hpa] at hqb
    exact Option.some.inj hqb
  · exfalso
    obtain ⟨thpa, hhpa⟩ := while_head hpa
    obtain ⟨thqba, thqbb, hhqb1, hhqb2⟩ := for_head hqb
    exact head_char_conflict (by decide) hhpa hhqb1
  · exfalso
    obtain ⟨thpa, hhpa⟩ := while_head hpa
    obtain ⟨thqb, hhqb⟩ := do_while_head hqb
    exact head_char_conflict (by decide) hhpa hhqb
  · exfalso
    obtain ⟨thpa, hhpa⟩ := while_head hpa
    obtain ⟨thqb, hhqb⟩ := foreach_head hqb
    exact head_char_conflict (by decide) hhpa hhqb
  · exfalso
    obtain ⟨thpaa, thpab, hhpa1, hhpa2⟩ := for_head hpa
    obtain ⟨thqb, hhqb⟩ := forever_head hqb
    exact for_forever_conflict hhpa1 hhpa2 hhqb
  · exfalso
    obtain ⟨thpaa, thpab, hhpa1, hhpa2⟩ := for_head hpa
    obtain ⟨thqb, hhqb⟩ := repeat_head hqb
    exact head_char_conflict (by decide) hhpa1 hhqb
  · exfalso
    obtain ⟨thpaa, thpab, hhpa1, hhpa2⟩ := for_head hpa
    obtain ⟨thqb, hhqb⟩ := while_head hqb
    exact head_char_conflict (by decide) hhpa1 hhqb
  · rw [hpa] at hqb
    exact Option.some.inj hqb
  · exfalso
    obtain ⟨thpaa, thpab, hhpa1, hhpa2⟩ := for_head hpa
    obtain ⟨thqb, hhqb⟩ := do_while_head hqb
    exact head_char_conflict (by decide) hhpa1 hhqb
  · exfalso
    obtain ⟨thpaa, thpab, hhpa1, hhpa2⟩ := for_head hpa
    obtain ⟨thqb, hhqb⟩ := foreach_head hqb
    exact for_foreach_conflict hhpa1 hhpa2 hhqb
  · exfalso
    obtain ⟨thpa, hhpa⟩ := do_while_head hpa
    obtain ⟨thqb, hhqb⟩ := forever_head hqb
    exact head_char_conflict (by decide) hhpa hhqb
  · exfalso
    obtain ⟨thpa, hhpa⟩ := do_while_head hpa
    obtain ⟨thqb, hhqb⟩ := repeat_head hqb
    exact head_char_conflict (by decide) hhpa hhqb
  · exfalso
    obtain ⟨thpa, hhpa⟩ := do_while_head hpa
    obtain ⟨thqb, hhqb⟩ := while_head hqb
    exact head_char_conflict (by decide) hhpa hhqb
  · exfalso
    obtain ⟨thpa, hhpa⟩ := do_while_head hpa
    obtain ⟨thqba, thqbb, hhqb1, hhqb2⟩ := for_head hqb
    exact head_char_conflict (by decide) hhpa hhqb1
  · rw [hpa] at hqb
    exact Option.some.inj hqb
  · exfalso
    obtain ⟨thpa, hhpa⟩ := do_while_head hpa
    obtain ⟨thqb, hhqb⟩ := foreach_head hqb
    exact head_char_conflict (by decide) hhpa hhqb
  · exfalso
    obtain ⟨thpa, hhpa⟩ := foreach_head hpa
    obtain ⟨thqb, hhqb⟩ := forever_head hqb
    exact forever_foreach_conflict hhqb hhpa
  · exfalso
    obtain ⟨thpa, hhpa⟩ := foreach_head hpa
    obtain ⟨thqb, hhqb⟩ := repeat_head hqb
    exact head_char_conflict (by decide) hhpa hhqb
  · exfalso
    obtain ⟨thpa, hhpa⟩ := foreach_head hpa
    obtain ⟨thqb, hhqb⟩ := while_head hqb
    exact head_char_conflict (by decide) hhpa hhqb
  · exfalso
    obtain ⟨thpa, hhpa⟩ := foreach_head hpa
    obtain ⟨thqba, thqbb, hhqb1, hhqb2⟩ := for_head hqb
    exact for_foreach_conflict hhqb1 hhqb2 hhpa
  · exfalso
    obtain ⟨thpa, hhpa⟩ := foreach_head hpa
    obtain ⟨thqb, hhqb⟩ := do_while_head hqb
    exact head_char_conflict (by decide) hhpa hhqb
  · rw [hpa] at hqb
    exact Option.some.inj hqb

/-- Ordered alternation is invariant under permutation of the alternatives when
any two alternatives that succeed at the same position agree. -/
lemma altl_congr_of_agree {α : Type} {s : Input} :
    ∀ {l l' : List (Parser α)}, l.Perm l' →
      (∀ p ∈ l, ∀ q ∈ l, ∀ a b, p s = some a → q s = some b → a = b) →
      altl l s = altl l' s := by
  intro l l' h
  induction h with
  | nil => intro _; rfl
  | cons p h ih =>
    intro hR
    simp only [altl]
    cases hp : p s with
    | some r => rfl
    | none =>
      exact ih fun p' hp' q' hq' =>
        hR p' (List.mem_cons_of_mem _ hp') q' (List.mem_cons_of_mem _ hq')
  | swap x y l =>
    intro hR
    cases hy : y s with
    | some b =>
      cases hx : x s with
      | some a =>
        have hab : b = a := hR y (by simp) x (by simp) b a hy hx
        simp [altl, hy, hx, hab]
      | none => simp [altl, hy, hx]
    | none =>
      cases hx : x s with
      | some a => simp [altl, hy, hx]
      | none => simp [altl, hy, hx]
  | trans h1 h2 ih1 ih2 =>
    intro hR
    refine (ih1 hR).trans (ih2 ?_)
    intro p hp q hq
    exact hR p (h1.mem_iff.mpr hp) q (h1.mem_iff.mpr hq)

/-- C5: on every input at most one of the six variant parsers can succeed (their
leading keywords are mutually exclusive), so the dispatcher's ordered
alternation gives the same result under any permutation of the fixed order
forever, repeat, while, for, do-while, foreach. -/
theorem loop_statement_order_independent
    (s : Input) (l : List (Parser LoopStatement))
    (h : l.Perm [loop_statement_forever, loop_statement_repeat, loop_statement_while,
                 loop_statement_for, loop_statement_do_while, loop_statement_foreach]) :
    altl l s = loop_statement s :=
  altl_congr_of_agree h fun p hp q hq =>
    loop_variant_agree s p (h.mem_iff.mp hp) q (h.mem_iff.mp hq)

/-- Witness for C5: swapping the first two alternatives does not change the
parse of `"forever ;"`. -/
theorem loop_statement_order_independent_witness :
    altl [loop_statement_repeat, loop_statement_forever, loop_statement_while,
          loop_statement_for, loop_statement_do_while, loop_statement_foreach]
        (strL "forever ;") =
      loop_statement (strL "forever ;") :=
  loop_statement_order_independent (strL "forever ;") _ (List.Perm.swap _ _ _)

end SvParser
